import Mathlib

/-!
# Verification of the offline-first sync core of the MoneyMate client

This file gives a shallow embedding of the offline persistence and
bidirectional sync engine of the personal-finance client:

* the budget-item local store (`budgetDb`): create / update / soft delete /
  hard delete / mark-as-synced over a list of records keyed by `id`;
* the pure conflict module (`conflictResolution`): `detectConflict`,
  `autoResolveConflict`, `mergeItems`, `serverItemToLocal`, `applyResolution`;
* the sync orchestrator (`useOnlineSync`): the conflict-partitioning pass,
  the push decision, and conflict resolution application;
* the mutation outbox (`offlineDb`) and its replay loop (`syncNow`).

Timestamps (JavaScript `Date.getTime()` millisecond values) are embedded as
`Int`; wire-format ISO strings of the server records are embedded as their
parsed millisecond value.  Effectful functions take the current time and any
fresh identifier explicitly, and database state is passed as an explicit list
of rows (primary-key semantics of `insertOrReplace` are modelled by
replace-by-id, append when absent).
-/

set_option autoImplicit false

namespace MoneyMate

/-- The `type` field of a budget item: `'income' | 'expense'`. -/
inductive ItemType where
  | income
  | expense
deriving DecidableEq, Repr

/-- Local budget item record (interface `BudgetItem` in `budgetDb`).
`date`, `updatedAt`, `createdAt` are millisecond timestamps. -/
structure BudgetItem where
  id : String
  category : String
  description : String
  amount : Int
  type : ItemType
  date : Int
  synced : Bool
  updatedAt : Int
  createdAt : Int
  deleted : Bool
deriving DecidableEq, Repr

/-- Server-side representation (interface `ServerBudgetItem`).  The source
carries `date`/`updatedAt`/`createdAt` as ISO strings and parses them with
`new Date(...).getTime()`; the embedding carries the parsed values. -/
structure ServerBudgetItem where
  id : String
  category : String
  description : String
  amount : Int
  type : ItemType
  date : Int
  updatedAt : Int
  createdAt : Int
  deleted : Bool
deriving DecidableEq, Repr

/-- Field `conflictType` of a `SyncConflict`. -/
inductive ConflictType where
  | update
  | delete_local
  | delete_server
  | both_modified
deriving DecidableEq, Repr

/-- A detected conflict between local and server versions of an item. -/
structure SyncConflict where
  localItem : BudgetItem
  serverItem : ServerBudgetItem
  conflictType : ConflictType
deriving DecidableEq, Repr

/-- Resolution strategy chosen by the user or auto-resolved. -/
inductive ConflictResolution where
  | keep_local
  | keep_server
  | merge
  | pending
deriving DecidableEq, Repr

/-- A conflict together with the chosen resolution (interface
`ResolvedConflict extends SyncConflict`). -/
structure ResolvedConflict extends SyncConflict where
  resolution : ConflictResolution
  mergedItem : Option BudgetItem := none
deriving DecidableEq, Repr

/-- The 1000 ms clock-skew tolerance (`TIME_TOLERANCE` in the source). -/
def TIME_TOLERANCE : Int := 1000

/-- Embeds `detectConflict(localItem, serverItem)` from `conflictResolution`. -/
def detectConflict (localItem : BudgetItem) (serverItem : ServerBudgetItem) :
    Option SyncConflict :=
  let localUpdated := localItem.updatedAt
  let serverUpdated := serverItem.updatedAt
  if localItem.deleted && !serverItem.deleted then
    -- Local was deleted, but server was modified
    if serverUpdated > localUpdated then
      some { localItem := localItem, serverItem := serverItem,
             conflictType := ConflictType.delete_local }
    else
      none -- Local delete is newer, no conflict
  else if !localItem.deleted && serverItem.deleted then
    -- Server was deleted, but local was modified
    if localUpdated > serverUpdated then
      some { localItem := localItem, serverItem := serverItem,
             conflictType := ConflictType.delete_server }
    else
      none -- Server delete is newer, no conflict
  else if |localUpdated - serverUpdated| > TIME_TOLERANCE then
    -- Both were modified at different times
    some { localItem := localItem, serverItem := serverItem,
           conflictType := ConflictType.both_modified }
  else
    none -- No conflict - timestamps match

/-- Embeds `autoResolveConflict(conflict)`: last-write-wins. -/
def autoResolveConflict (conflict : SyncConflict) : ResolvedConflict :=
  let localUpdated := conflict.localItem.updatedAt
  let serverUpdated := conflict.serverItem.updatedAt
  if localUpdated ≥ serverUpdated then
    { toSyncConflict := conflict, resolution := ConflictResolution.keep_local }
  else
    { toSyncConflict := conflict, resolution := ConflictResolution.keep_server }

/-- Embeds `mergeItems(localItem, serverItem)`; `now` stands for the `new Date()`
taken for the `updatedAt` of the result. -/
def mergeItems (now : Int) (localItem : BudgetItem) (serverItem : ServerBudgetItem) :
    BudgetItem :=
  let localUpdated := localItem.updatedAt
  let serverUpdated := serverItem.updatedAt
  { id := localItem.id
    category := if localUpdated ≥ serverUpdated then localItem.category else serverItem.category
    description := if localUpdated ≥ serverUpdated then localItem.description else serverItem.description
    amount := if localUpdated ≥ serverUpdated then localItem.amount else serverItem.amount
    type := if localUpdated ≥ serverUpdated then localItem.type else serverItem.type
    date := if localUpdated ≥ serverUpdated then localItem.date else serverItem.date
    synced := false        -- Needs to sync the merged version
    updatedAt := now       -- Mark as freshly updated
    createdAt := localItem.createdAt
    deleted := false }

/-- Embeds `serverItemToLocal(serverItem)`. -/
def serverItemToLocal (serverItem : ServerBudgetItem) : BudgetItem :=
  { id := serverItem.id
    category := serverItem.category
    description := serverItem.description
    amount := serverItem.amount
    type := serverItem.type
    date := serverItem.date
    synced := true         -- Server version is already synced
    updatedAt := serverItem.updatedAt
    createdAt := serverItem.createdAt
    deleted := serverItem.deleted }

/-- Embeds `applyResolution(resolved)`; `now` feeds the `mergeItems` fallback. -/
def applyResolution (now : Int) (resolved : ResolvedConflict) : BudgetItem :=
  match resolved.resolution with
  | ConflictResolution.keep_local =>
      { resolved.localItem with synced := false }
  | ConflictResolution.keep_server =>
      serverItemToLocal resolved.serverItem
  | ConflictResolution.merge =>
      (resolved.mergedItem).getD (mergeItems now resolved.localItem resolved.serverItem)
  | ConflictResolution.pending =>
      resolved.localItem

/-- The five content fields of an item, used to state that the merge is a
whole-record pick. -/
structure ItemContent where
  category : String
  description : String
  amount : Int
  type : ItemType
  date : Int
deriving DecidableEq, Repr

/-- Content fields of a local item. -/
def BudgetItem.content (b : BudgetItem) : ItemContent :=
  { category := b.category, description := b.description, amount := b.amount,
    type := b.type, date := b.date }

/-- Content fields of a server item. -/
def ServerBudgetItem.content (s : ServerBudgetItem) : ItemContent :=
  { category := s.category, description := s.description, amount := s.amount,
    type := s.type, date := s.date }

/-- Sample local item used in concrete scenarios: alive, unsynced,
`updatedAt = 0`, amount 100. -/
def sampleItem : BudgetItem :=
  { id := "a", category := "food", description := "lunch", amount := 100,
    type := ItemType.expense, date := 0, synced := false, updatedAt := 0,
    createdAt := 0, deleted := false }

/-- Sample server counterpart of `sampleItem`: alive, `updatedAt = 5000`
(5000 ms newer), amount 200. -/
def sampleServer : ServerBudgetItem :=
  { id := "a", category := "food", description := "lunch", amount := 200,
    type := ItemType.expense, date := 0, updatedAt := 5000, createdAt := 0,
    deleted := false }

/-- C1: `detectConflict` classifies exactly as the spec's algorithm: when the
local item is deleted and the server item is not, it returns a `delete_local`
conflict iff the server timestamp is strictly greater than the local one and
otherwise no conflict; symmetrically with `delete_server` when only the server
item is deleted; in every other case (both alive or both deleted) it returns a
`both_modified` conflict iff the timestamps differ by strictly more than
1000 ms, and `none` when they are within the tolerance. -/
theorem detectConflict_spec (localItem : BudgetItem) (serverItem : ServerBudgetItem) :
    detectConflict localItem serverItem =
      if localItem.deleted = true ∧ serverItem.deleted = false then
        (if serverItem.updatedAt > localItem.updatedAt then
          some { localItem := localItem, serverItem := serverItem,
                 conflictType := ConflictType.delete_local }
        else none)
      else if localItem.deleted = false ∧ serverItem.deleted = true then
        (if localItem.updatedAt > serverItem.updatedAt then
          some { localItem := localItem, serverItem := serverItem,
                 conflictType := ConflictType.delete_server }
        else none)
      else if 1000 < |localItem.updatedAt - serverItem.updatedAt| then
        some { localItem := localItem, serverItem := serverItem,
               conflictType := ConflictType.both_modified }
      else none := by
  unfold detectConflict TIME_TOLERANCE
  cases hl : localItem.deleted <;> cases hs : serverItem.deleted <;> simp [hl, hs]

/-- C6: `autoResolveConflict` picks `keep_local` iff the local `updatedAt` is
greater than or equal to the server `updatedAt`, and `keep_server` otherwise;
in particular, on the `both_modified` conflict between `sampleItem` and a
server version 5000 ms newer, it picks `keep_server`. -/
theorem autoResolveConflict_spec :
    (∀ conflict : SyncConflict,
      (autoResolveConflict conflict).resolution =
        if conflict.localItem.updatedAt ≥ conflict.serverItem.updatedAt then
          ConflictResolution.keep_local
        else ConflictResolution.keep_server) ∧
    detectConflict sampleItem sampleServer =
      some { localItem := sampleItem, serverItem := sampleServer,
             conflictType := ConflictType.both_modified } ∧
    (autoResolveConflict
      { localItem := sampleItem, serverItem := sampleServer,
        conflictType := ConflictType.both_modified }).resolution =
      ConflictResolution.keep_server := by
  refine ⟨fun conflict => ?_, by decide, by decide⟩
  unfold autoResolveConflict
  by_cases h : conflict.localItem.updatedAt ≥ conflict.serverItem.updatedAt <;>
    simp [h]

/-- C9: `mergeItems` is a whole-record pick, not a field-level merge: all five
content fields of the result come from the local item when
`local.updatedAt ≥ server.updatedAt` and from the server item otherwise (the
same side for every field), and the result always has `synced = false` and
`updatedAt` equal to the merge time. -/
theorem mergeItems_whole_record_pick (now : Int) (localItem : BudgetItem)
    (serverItem : ServerBudgetItem) :
    (mergeItems now localItem serverItem).content =
      (if localItem.updatedAt ≥ serverItem.updatedAt then localItem.content
       else serverItem.content) ∧
    (mergeItems now localItem serverItem).synced = false ∧
    (mergeItems now localItem serverItem).updatedAt = now := by
  unfold mergeItems BudgetItem.content ServerBudgetItem.content
  by_cases h : localItem.updatedAt ≥ serverItem.updatedAt <;> simp [h]

/-- C10: `mergeItems` always returns an item with `deleted = false` and
`synced = false`, regardless of the deletion flags of its inputs — in
particular when the local item, the server item, or both are marked deleted,
the merged result is a live, unsynced record, so resolving a conflict via
merge resurrects a deleted item. -/
theorem mergeItems_always_undeleted (now : Int) (localItem : BudgetItem)
    (serverItem : ServerBudgetItem) :
    (mergeItems now localItem serverItem).deleted = false ∧
    (mergeItems now localItem serverItem).synced = false := by
  unfold mergeItems
  exact ⟨rfl, rfl⟩

/-! ## The budget-item local store (`budgetDb`)

The IndexedDB table keyed by `id` is embedded as a `List BudgetItem`;
`insertOrReplace` with primary key `id` replaces every row carrying the key
and appends when the key is absent. -/

/-- A `Partial<BudgetItem>`: each field optionally present. -/
structure BudgetItemPatch where
  id : Option String := none
  category : Option String := none
  description : Option String := none
  amount : Option Int := none
  type : Option ItemType := none
  date : Option Int := none
  synced : Option Bool := none
  updatedAt : Option Int := none
  createdAt : Option Int := none
  deleted : Option Bool := none
deriving DecidableEq, Repr

/-- Object spread `{...existingItem, ...updates}`: fields present in the
patch override the existing record. -/
def applyPatch (existingItem : BudgetItem) (updates : BudgetItemPatch) : BudgetItem :=
  { id := updates.id.getD existingItem.id
    category := updates.category.getD existingItem.category
    description := updates.description.getD existingItem.description
    amount := updates.amount.getD existingItem.amount
    type := updates.type.getD existingItem.type
    date := updates.date.getD existingItem.date
    synced := updates.synced.getD existingItem.synced
    updatedAt := updates.updatedAt.getD existingItem.updatedAt
    createdAt := updates.createdAt.getD existingItem.createdAt
    deleted := updates.deleted.getD existingItem.deleted }

/-- Embeds `insertOrReplace().into(BudgetItems)` with primary key `id`. -/
def dbUpsert (store : List BudgetItem) (item : BudgetItem) : List BudgetItem :=
  if store.any (fun r => r.id == item.id) then
    store.map (fun r => if r.id == item.id then item else r)
  else
    store ++ [item]

/-- The system-field-free part of a new item
(`Omit<BudgetItem, 'id' | 'synced' | 'updatedAt' | 'createdAt' | 'deleted'>`). -/
structure NewBudgetItem where
  category : String
  description : String
  amount : Int
  type : ItemType
  date : Int
deriving DecidableEq, Repr

/-- Embeds `addBudgetItem(item)`; `newId` stands for the `generateId()` result and
`now` for `new Date()`. -/
def addBudgetItem (store : List BudgetItem) (item : NewBudgetItem)
    (newId : String) (now : Int) : BudgetItem × List BudgetItem :=
  let newItem : BudgetItem :=
    { id := newId, category := item.category, description := item.description,
      amount := item.amount, type := item.type, date := item.date,
      synced := false, -- Mark as unsynced - needs to be sent to server
      updatedAt := now, createdAt := now, deleted := false }
  (newItem, dbUpsert store newItem)

/-- Embeds `updateBudgetItem(id, updates)`: looks the record up by id; when absent,
returns `none` and leaves the store untouched; when present, spreads the
updates over the existing record and then re-forces `id`, `synced := false`
and `updatedAt := now`, persisting with `insertOrReplace`. -/
def updateBudgetItem (store : List BudgetItem) (i : String)
    (updates : BudgetItemPatch) (now : Int) : Option BudgetItem × List BudgetItem :=
  match store.find? (fun r => r.id == i) with
  | none => (none, store)
  | some existingItem =>
      let updatedItem : BudgetItem :=
        { applyPatch existingItem updates with
          id := i,           -- Ensure ID does not change
          synced := false,   -- Mark as unsynced after edit
          updatedAt := now }
      (some updatedItem, dbUpsert store updatedItem)

/-- Embeds `deleteBudgetItem(id)`: soft delete via
`updateBudgetItem(id, { deleted: true, synced: false })`. -/
def deleteBudgetItem (store : List BudgetItem) (i : String) (now : Int) :
    Bool × List BudgetItem :=
  let result := updateBudgetItem store i
    { deleted := some true, synced := some false } now
  (result.1.isSome, result.2)

/-- Embeds `hardDeleteBudgetItem(id)`: `delete().from(table).where(id.eq(id))`. -/
def hardDeleteBudgetItem (store : List BudgetItem) (i : String) : List BudgetItem :=
  store.filter (fun r => !(r.id == i))

/-- Embeds `getUnsyncedItems()`: all rows with `synced = false`. -/
def getUnsyncedItems (store : List BudgetItem) : List BudgetItem :=
  store.filter (fun r => r.synced == false)

/-- The per-id body of the `for (const id of ids)` loop in
`markItemsAsSynced`: look the row up; hard-delete it when it is soft-deleted,
otherwise rewrite it with `synced := true`; skip absent ids. -/
def markSyncedStep (store : List BudgetItem) (i : String) : List BudgetItem :=
  match store.find? (fun r => r.id == i) with
  | none => store
  | some item =>
      if item.deleted then
        hardDeleteBudgetItem store i -- Hard delete synced deleted items
      else
        dbUpsert store { item with synced := true } -- Mark as synced

/-- Embeds `markItemsAsSynced(ids)`. -/
def markItemsAsSynced (store : List BudgetItem) (ids : List String) : List BudgetItem :=
  ids.foldl markSyncedStep store

/-- C4 counterexample: `updateBudgetItem` does not re-force `createdAt` after
spreading the partial, so a partial containing `createdAt` overrides it: on a
store holding only `sampleItem` (whose `createdAt` is 0), updating `"a"` with
the partial `{ createdAt := 5 }` yields a record with `createdAt = 5`, not 0. -/
theorem updateBudgetItem_createdAt_counterexample :
    ((updateBudgetItem [sampleItem] "a" { createdAt := some 5 } 10).1.map
      (fun b => b.createdAt)) = some 5 ∧
    ¬ ((updateBudgetItem [sampleItem] "a" { createdAt := some 5 } 10).1.map
      (fun b => b.createdAt)) = some sampleItem.createdAt := by
  constructor
  · rfl
  · decide

/-- C4 (amended): for an existing record, `update(id, partial)` merges the
given fields into the existing record, forces `synced = false`, refreshes
`updatedAt` to the mutation time, preserves `id`, and preserves `createdAt`
provided the partial does not itself contain `createdAt`; for an id with no
record it returns the NotFound signal (`none`) and changes nothing. -/
theorem updateBudgetItem_spec (store : List BudgetItem) (i : String)
    (updates : BudgetItemPatch) (now : Int) :
    (∀ existingItem, store.find? (fun r => r.id == i) = some existingItem →
      ∃ item,
        (updateBudgetItem store i updates now).1 = some item ∧
        (updateBudgetItem store i updates now).2 =
          store.map (fun r => if r.id == i then item else r) ∧
        item.category = updates.category.getD existingItem.category ∧
        item.description = updates.description.getD existingItem.description ∧
        item.amount = updates.amount.getD existingItem.amount ∧
        item.type = updates.type.getD existingItem.type ∧
        item.date = updates.date.getD existingItem.date ∧
        item.deleted = updates.deleted.getD existingItem.deleted ∧
        item.synced = false ∧
        item.updatedAt = now ∧
        item.id = existingItem.id ∧
        (updates.createdAt = none → item.createdAt = existingItem.createdAt)) ∧
    (store.find? (fun r => r.id == i) = none →
      updateBudgetItem store i updates now = (none, store)) := by
  constructor
  · intro existingItem hfind
    have hid : existingItem.id = i := by
      have := List.find?_some hfind
      simpa using this
    have hany : store.any (fun r => r.id == i) = true := by
      rcases List.mem_of_find?_eq_some hfind with hmem
      exact List.any_eq_true.mpr ⟨existingItem, hmem, by simpa using hid⟩
    refine ⟨{ applyPatch existingItem updates with
              id := i, synced := false, updatedAt := now }, ?_, ?_, ?_⟩
    · simp [updateBudgetItem, hfind]
    · simp [updateBudgetItem, hfind, dbUpsert, hany]
    · refine ⟨rfl, rfl, rfl, rfl, rfl, rfl, rfl, rfl, hid.symm, ?_⟩
      intro hnone
      simp [applyPatch, hnone]
  · intro hfind
    simp [updateBudgetItem, hfind]

/-- C4 witness: concrete use of `updateBudgetItem_spec` on a one-row store,
updating the amount of `sampleItem` with a partial that leaves `createdAt`
unspecified. -/
theorem updateBudgetItem_spec_witness :
    ∃ item,
      (updateBudgetItem [sampleItem] "a" { amount := some 7 } 10).1 = some item ∧
      (updateBudgetItem [sampleItem] "a" { amount := some 7 } 10).2 =
        [sampleItem].map (fun r => if r.id == "a" then item else r) ∧
      item.category = ({ amount := some 7 } : BudgetItemPatch).category.getD sampleItem.category ∧
      item.description = ({ amount := some 7 } : BudgetItemPatch).description.getD sampleItem.description ∧
      item.amount = ({ amount := some 7 } : BudgetItemPatch).amount.getD sampleItem.amount ∧
      item.type = ({ amount := some 7 } : BudgetItemPatch).type.getD sampleItem.type ∧
      item.date = ({ amount := some 7 } : BudgetItemPatch).date.getD sampleItem.date ∧
      item.deleted = ({ amount := some 7 } : BudgetItemPatch).deleted.getD sampleItem.deleted ∧
      item.synced = false ∧
      item.updatedAt = 10 ∧
      item.id = sampleItem.id ∧
      (({ amount := some 7 } : BudgetItemPatch).createdAt = none →
        item.createdAt = sampleItem.createdAt) :=
  (updateBudgetItem_spec [sampleItem] "a" { amount := some 7 } 10).1 sampleItem (by decide)

/-- A store none of whose rows carries the id `i` has no `find?` hit for `i`. -/
lemma find?_none_of_fresh (store : List BudgetItem) (i : String)
    (h : ∀ r ∈ store, r.id ≠ i) : store.find? (fun r => r.id == i) = none := by
  rw [List.find?_eq_none]
  intro x hx
  simpa using h x hx

/-- Replacing the rows keyed `i` by `item'` (with `item'.id = i`) makes
`item'` the `find?` hit for `i`, provided `i` was present. -/
lemma find?_map_replace (store : List BudgetItem) (i : String) (item item' : BudgetItem)
    (hfind : store.find? (fun r => r.id == i) = some item) (hid : item'.id = i) :
    (store.map (fun r => if r.id == i then item' else r)).find? (fun r => r.id == i) =
      some item' := by
  induction store with
  | nil => simp at hfind
  | cons x xs ih =>
      rw [List.map_cons]
      by_cases hx : (x.id == i) = true
      · rw [if_pos hx, List.find?_cons_of_pos _ (by simp [hid])]
      · rw [if_neg hx, List.find?_cons_of_neg _ (by simpa using hx)]
        rw [List.find?_cons_of_neg _ (by simpa using hx)] at hfind
        exact ih hfind

/-- C5: `markItemsAsSynced(ids)` processes the ids one at a time; for a single
id, if the stored record is soft-deleted it is physically removed from the
store, if it is alive its `synced` flag is set to `true` with every other
field unchanged, and an absent id is skipped; in particular, creating an item
under a fresh id, soft-deleting it, and marking it synced leaves the store
exactly as it was — no record for that id survives. -/
theorem markItemsAsSynced_spec (store : List BudgetItem) (i : String) (ids : List String) :
    markItemsAsSynced store (i :: ids) = markItemsAsSynced (markSyncedStep store i) ids ∧
    (∀ item, store.find? (fun r => r.id == i) = some item →
      (item.deleted = true →
        markSyncedStep store i = store.filter (fun r => !(r.id == i))) ∧
      (item.deleted = false →
        markSyncedStep store i =
          store.map (fun r => if r.id == i then { item with synced := true } else r))) ∧
    (store.find? (fun r => r.id == i) = none → markSyncedStep store i = store) ∧
    (∀ (content : NewBudgetItem) (newId : String) (t1 t2 : Int),
      (∀ r ∈ store, r.id ≠ newId) →
      markItemsAsSynced
        (deleteBudgetItem (addBudgetItem store content newId t1).2 newId t2).2
        [newId] = store) := by
  refine ⟨rfl, ?_, ?_, ?_⟩
  · intro item hfind
    have hid : item.id = i := by simpa using List.find?_some hfind
    constructor
    · intro hdel
      simp [markSyncedStep, hfind, hdel, hardDeleteBudgetItem]
    · intro hdel
      have hany : store.any (fun r => r.id == i) = true :=
        List.any_eq_true.mpr ⟨item, List.mem_of_find?_eq_some hfind, by simpa using hid⟩
      simp [markSyncedStep, hfind, hdel, dbUpsert, hid, hany]
  · intro hfind
    simp [markSyncedStep, hfind]
  · intro content newId t1 t2 hfresh
    have hany0 : store.any (fun r => r.id == newId) = false := by
      rw [List.any_eq_false]
      intro x hx
      simpa using hfresh x hx
    have hfind0 : store.find? (fun r => r.id == newId) = none :=
      find?_none_of_fresh store newId hfresh
    -- the freshly created row
    set newItem : BudgetItem :=
      { id := newId, category := content.category, description := content.description,
        amount := content.amount, type := content.type, date := content.date,
        synced := false, updatedAt := t1, createdAt := t1, deleted := false } with hnew
    have hadd : (addBudgetItem store content newId t1).2 = store ++ [newItem] := by
      simp [addBudgetItem, dbUpsert, hany0, hnew]
    -- the row after the soft delete
    set delItem : BudgetItem :=
      { id := newId, category := content.category, description := content.description,
        amount := content.amount, type := content.type, date := content.date,
        synced := false, updatedAt := t2, createdAt := t1, deleted := true } with hdel
    have hfind1 : (store ++ [newItem]).find? (fun r => r.id == newId) = some newItem := by
      rw [List.find?_append, hfind0]
      simp [hnew]
    have hsoft : (deleteBudgetItem (store ++ [newItem]) newId t2).2 = store ++ [delItem] := by
      have hany1 : (store ++ [newItem]).any (fun r => r.id == newId) = true :=
        List.any_eq_true.mpr ⟨newItem, by simp, by simp [hnew]⟩
      simp only [deleteBudgetItem, updateBudgetItem, hfind1, dbUpsert]
      rw [if_pos (by simp only [hnew] at hany1 ⊢; exact hany1)]
      rw [List.map_append]
      congr 1
      · rw [List.map_congr_left, List.map_id]
        intro r hr
        simp [hfresh r hr]
      · simp [hnew, hdel, applyPatch]
    have hfind2 : (store ++ [delItem]).find? (fun r => r.id == newId) = some delItem := by
      rw [List.find?_append, hfind0]
      simp [hdel]
    calc markItemsAsSynced
          (deleteBudgetItem (addBudgetItem store content newId t1).2 newId t2).2 [newId]
        = markSyncedStep (store ++ [delItem]) newId := by rw [hadd, hsoft]; rfl
      _ = (store ++ [delItem]).filter (fun r => !(r.id == newId)) := by
            simp [markSyncedStep, hfind2, hdel, hardDeleteBudgetItem]
      _ = store := by
            rw [List.filter_append]
            have h1 : store.filter (fun r => !(r.id == newId)) = store :=
              List.filter_eq_self.mpr (fun r hr => by simpa using hfresh r hr)
            have h2 : [delItem].filter (fun r => !(r.id == newId)) = [] := by
              simp [hdel]
            rw [h1, h2, List.append_nil]

/-- C5 witness: deleting-then-syncing a freshly created item on the empty
store leaves the store empty, and an absent id is skipped. -/
theorem markItemsAsSynced_spec_witness :
    markItemsAsSynced
      (deleteBudgetItem (addBudgetItem []
        { category := "food", description := "lunch", amount := 100,
          type := ItemType.expense, date := 0 } "b" 1).2 "b" 2).2 ["b"] = [] ∧
    markSyncedStep [] "c" = [] := by
  constructor
  · exact (markItemsAsSynced_spec [] "b" []).2.2.2
      { category := "food", description := "lunch", amount := 100,
        type := ItemType.expense, date := 0 } "b" 1 2 (by simp)
  · exact (markItemsAsSynced_spec [] "c" []).2.2.1 rfl

/-- Unfolding `markSyncedStep` when the id is present. -/
lemma markSyncedStep_of_found (store : List BudgetItem) (i : String) (item : BudgetItem)
    (h : store.find? (fun r => r.id == i) = some item) :
    markSyncedStep store i =
      if item.deleted then hardDeleteBudgetItem store i
      else dbUpsert store { item with synced := true } := by
  unfold markSyncedStep
  rw [h]

/-- C7: `markSynced([id])` is idempotent: running it a second time on the
resulting store is a no-op — the record is already synced or already removed. -/
theorem markSynced_idempotent (store : List BudgetItem) (i : String) :
    markItemsAsSynced (markItemsAsSynced store [i]) [i] = markItemsAsSynced store [i] := by
  show markSyncedStep (markSyncedStep store i) i = markSyncedStep store i
  cases hfind : store.find? (fun r => r.id == i) with
  | none =>
      have h1 : markSyncedStep store i = store := by simp [markSyncedStep, hfind]
      rw [h1, markSyncedStep, hfind]
  | some item =>
      have hid : item.id = i := by simpa using List.find?_some hfind
      cases hdel : item.deleted with
      | true =>
          have h1 : markSyncedStep store i = store.filter (fun r => !(r.id == i)) := by
            simp [markSyncedStep, hfind, hdel, hardDeleteBudgetItem]
          have h2 : (store.filter (fun r => !(r.id == i))).find?
              (fun r => r.id == i) = none := by
            rw [List.find?_eq_none]
            intro x hx
            have := List.of_mem_filter hx
            simpa using this
          rw [h1, markSyncedStep, h2]
      | false =>
          have hany : store.any (fun r => r.id == i) = true :=
            List.any_eq_true.mpr ⟨item, List.mem_of_find?_eq_some hfind, by simpa using hid⟩
          obtain ⟨u, hu⟩ : ∃ u, ({ item with synced := true } : BudgetItem) = u := ⟨_, rfl⟩
          have hid' : u.id = i := by rw [← hu]; exact hid
          have hdel2 : u.deleted = false := by rw [← hu]; exact hdel
          have husame : ({ u with synced := true } : BudgetItem) = u := by rw [← hu]
          have h1 : markSyncedStep store i = dbUpsert store u := by
            rw [markSyncedStep_of_found store i item hfind, if_neg (by simp [hdel]), hu]
          have hup : dbUpsert store u = store.map (fun r => if r.id == i then u else r) := by
            rw [dbUpsert]
            simp only [hid']
            rw [if_pos hany]
          have hfind2 : (store.map (fun r => if r.id == i then u else r)).find?
              (fun r => r.id == i) = some u :=
            find?_map_replace store i item u hfind hid'
          have hany2 : (store.map (fun r => if r.id == i then u else r)).any
              (fun r => r.id == i) = true :=
            List.any_eq_true.mpr ⟨u, List.mem_of_find?_eq_some hfind2, by simpa using hid'⟩
          have h2 : markSyncedStep (store.map (fun r => if r.id == i then u else r)) i =
              dbUpsert (store.map (fun r => if r.id == i then u else r)) u := by
            rw [markSyncedStep_of_found _ i u hfind2, if_neg (by simp [hdel2]), husame]
          have h3 : dbUpsert (store.map (fun r => if r.id == i then u else r)) u =
              store.map (fun r => if r.id == i then u else r) := by
            rw [dbUpsert]
            simp only [hid']
            rw [if_pos hany2, List.map_map]
            apply List.map_congr_left
            intro r _
            simp only [Function.comp_apply]
            by_cases hr : (r.id == i) = true
            · rw [if_pos hr, hid']
              simp
            · rw [if_neg hr, if_neg hr]
          rw [h1, hup, h2, h3]

/-! ## The sync orchestrator (`useOnlineSync`)

`fetchServerItems` is embedded as a map `String → Option ServerBudgetItem`
(the server counterparts known for each id; `none` for ids the server does
not know).  The batch push (`POST /api/budget/sync`) is embedded as a
function from the pushed batch to a `PushOutcome`; the second component of
`syncItemsToServer` records the batch actually handed to the push, so that
"nothing was pushed" is expressible. -/

/-- The `SyncResult` record of `useOnlineSync`. -/
structure SyncResult where
  success : Bool
  syncedIds : List String
  failedIds : List String
  conflicts : List SyncConflict
  error : Option String := none
deriving DecidableEq, Repr

/-- Outcome of the batch push request: the server's accepted/failed id lists
on HTTP success, or a thrown error. -/
inductive PushOutcome where
  | ok (syncedIds failedIds : List String)
  | err (message : String)
deriving DecidableEq, Repr

/-- The conflict-checking loop of `syncItemsToServer`: walk the candidate
items; an item whose server counterpart yields a `detectConflict` hit goes to
the conflict list, every other item goes to `itemsToSync`. -/
def partitionBySyncConflict (items : List BudgetItem)
    (serverItems : String → Option ServerBudgetItem) :
    List SyncConflict × List BudgetItem :=
  items.foldl
    (fun acc localItem =>
      match serverItems localItem.id with
      | some serverItem =>
          match detectConflict localItem serverItem with
          | some conflict => (acc.1 ++ [conflict], acc.2)
          | none => (acc.1, acc.2 ++ [localItem])
      | none => (acc.1, acc.2 ++ [localItem]))
    ([], [])

/-- Embeds `syncItemsToServer(items)`: detect conflicts first; with any conflict the
pass returns them and pushes nothing; otherwise push the full safe batch.
The second component is the batch handed to the push request. -/
def syncItemsToServer (items : List BudgetItem)
    (serverItems : String → Option ServerBudgetItem)
    (push : List BudgetItem → PushOutcome) : SyncResult × List BudgetItem :=
  let conflicts := (partitionBySyncConflict items serverItems).1
  let itemsToSync := (partitionBySyncConflict items serverItems).2
  if conflicts.length > 0 then
    ({ success := false, syncedIds := [], failedIds := [], conflicts := conflicts,
       error := some (toString conflicts.length ++
         " conflict(s) detected. Please resolve them.") }, [])
  else if itemsToSync.length = 0 then
    ({ success := true, syncedIds := [], failedIds := [], conflicts := [] }, [])
  else
    match push itemsToSync with
    | PushOutcome.ok syncedIds failedIds =>
        ({ success := true, syncedIds := syncedIds, failedIds := failedIds,
           conflicts := [] }, itemsToSync)
    | PushOutcome.err message =>
        ({ success := false, syncedIds := [], failedIds := items.map (fun i => i.id),
           conflicts := [], error := some message }, itemsToSync)

/-- The store-affecting core of one `triggerSync` pass: read the unsynced
set; when non-empty run `syncItemsToServer`; call `markItemsAsSynced` only
when the result is conflict-free, successful and non-trivial.  Returns the
new store, the pass result, and the batch that was pushed. -/
def triggerSyncStep (store : List BudgetItem)
    (serverItems : String → Option ServerBudgetItem)
    (push : List BudgetItem → PushOutcome) :
    List BudgetItem × SyncResult × List BudgetItem :=
  let unsyncedItems := getUnsyncedItems store
  if unsyncedItems.length = 0 then
    (store, { success := true, syncedIds := [], failedIds := [], conflicts := [] }, [])
  else
    let res := syncItemsToServer unsyncedItems serverItems push
    if res.1.conflicts.length > 0 then
      (store, res.1, res.2)
    else if res.1.success = true ∧ res.1.syncedIds.length > 0 then
      (markItemsAsSynced store res.1.syncedIds, res.1, res.2)
    else
      (store, res.1, res.2)

/-- The body of the `for (const resolved of resolutions)` loop in
`resolveConflicts`: compute the final item via `applyResolution`; hard-delete
when the resolution is `keep_server` and the server copy is itself deleted;
otherwise store the resolved fields through `updateBudgetItem`. -/
def resolveConflictStep (now : Int) (store : List BudgetItem)
    (resolved : ResolvedConflict) : List BudgetItem :=
  let finalItem := applyResolution now resolved
  if resolved.resolution = ConflictResolution.keep_server ∧
      resolved.serverItem.deleted = true then
    -- Server version is deleted, remove local copy
    hardDeleteBudgetItem store resolved.localItem.id
  else
    -- Update local item with resolved version
    (updateBudgetItem store resolved.localItem.id
      { category := some finalItem.category,
        description := some finalItem.description,
        amount := some finalItem.amount,
        type := some finalItem.type,
        date := some finalItem.date,
        synced := some finalItem.synced,
        deleted := some finalItem.deleted } now).2

/-- Embeds `resolveConflicts(resolutions)` (store effect only). -/
def resolveConflicts (now : Int) (store : List BudgetItem)
    (resolutions : List ResolvedConflict) : List BudgetItem :=
  resolutions.foldl (resolveConflictStep now) store

/-- A `keep_server` resolution of the `both_modified` conflict between
`sampleItem` and its live server counterpart `sampleServer`. -/
def keepServerSample : ResolvedConflict :=
  { localItem := sampleItem, serverItem := sampleServer,
    conflictType := ConflictType.both_modified,
    resolution := ConflictResolution.keep_server }

/-- C2, evaluated at the failing input: `applyResolution` on a `keep_server`
resolution with a live server copy does produce the server record converted
to local shape with `synced = true`, but `resolveConflicts` persists it
through `updateBudgetItem`, which re-forces `synced := false` and refreshes
`updatedAt`; the stored record therefore carries the server content with
`synced = false`, it is still in the unsynced set, and it is offered to the
push batch on the next sync pass. -/
theorem resolveConflicts_keep_server_leaves_unsynced :
    applyResolution 9999 keepServerSample = serverItemToLocal sampleServer ∧
    (serverItemToLocal sampleServer).synced = true ∧
    resolveConflicts 9999 [sampleItem] [keepServerSample] =
      [{ id := "a", category := "food", description := "lunch", amount := 200,
         type := ItemType.expense, date := 0, synced := false, updatedAt := 9999,
         createdAt := 0, deleted := false }] ∧
    getUnsyncedItems (resolveConflicts 9999 [sampleItem] [keepServerSample]) =
      resolveConflicts 9999 [sampleItem] [keepServerSample] := by
  refine ⟨rfl, rfl, by decide, by decide⟩

/-- Evaluating `syncItemsToServer` when the conflict list is non-empty: the pass stops
short with the full conflict list, empty id lists, and an empty pushed batch. -/
lemma syncItemsToServer_of_conflicts (items : List BudgetItem)
    (serverItems : String → Option ServerBudgetItem)
    (push : List BudgetItem → PushOutcome)
    (h : (partitionBySyncConflict items serverItems).1 ≠ []) :
    syncItemsToServer items serverItems push =
      ({ success := false, syncedIds := [], failedIds := [],
         conflicts := (partitionBySyncConflict items serverItems).1,
         error := some (toString (partitionBySyncConflict items serverItems).1.length ++
           " conflict(s) detected. Please resolve them.") }, []) := by
  have hpos : 0 < (partitionBySyncConflict items serverItems).1.length :=
    List.length_pos.mpr h
  simp only [syncItemsToServer]
  rw [if_pos hpos]

/-- C3: if `detectConflict` reports a conflict for at least one candidate of
the sync pass, the pass pushes nothing (the pushed batch is empty, for safe
and conflicting items alike), leaves the store — and hence every record's
`synced` flag — untouched, and surfaces the full list of detected conflicts
in the pass result. -/
theorem conflicts_block_push (store : List BudgetItem)
    (serverItems : String → Option ServerBudgetItem)
    (push : List BudgetItem → PushOutcome)
    (h : (partitionBySyncConflict (getUnsyncedItems store) serverItems).1 ≠ []) :
    triggerSyncStep store serverItems push =
      (store,
       { success := false, syncedIds := [], failedIds := [],
         conflicts := (partitionBySyncConflict (getUnsyncedItems store) serverItems).1,
         error := some
           (toString (partitionBySyncConflict (getUnsyncedItems store) serverItems).1.length ++
             " conflict(s) detected. Please resolve them.") },
       []) := by
  have hne : getUnsyncedItems store ≠ [] := by
    intro h0
    apply h
    rw [h0]
    rfl
  have hlen : ¬ (getUnsyncedItems store).length = 0 := by
    simpa [List.length_eq_zero] using hne
  have hsync := syncItemsToServer_of_conflicts (getUnsyncedItems store) serverItems push h
  have hpos : 0 < (partitionBySyncConflict (getUnsyncedItems store) serverItems).1.length :=
    List.length_pos.mpr h
  simp only [triggerSyncStep]
  rw [if_neg hlen, hsync]
  simp only []
  rw [if_pos hpos]

/-- Server map for the C3 witness: the server knows item `"a"` as
`sampleServer`. -/
def c3Server : String → Option ServerBudgetItem :=
  fun i => if i = "a" then some sampleServer else none

/-- Push stub for the C3 witness (never reached in the conflicting pass). -/
def c3Push : List BudgetItem → PushOutcome :=
  fun _ => PushOutcome.ok [] []

/-- C3 witness: on the one-item store `[sampleItem]` whose server counterpart
is 5000 ms newer, the pass pushes nothing, keeps the store unchanged and
surfaces the single `both_modified` conflict. -/
theorem conflicts_block_push_witness :
    triggerSyncStep [sampleItem] c3Server c3Push =
      ([sampleItem],
       { success := false, syncedIds := [], failedIds := [],
         conflicts := [{ localItem := sampleItem, serverItem := sampleServer,
                         conflictType := ConflictType.both_modified }],
         error := some "1 conflict(s) detected. Please resolve them." },
       []) := by
  have h := conflicts_block_push [sampleItem] c3Server c3Push (by decide)
  rw [h]
  decide

/-! ## The mutation outbox (`offlineDb`) and its replay loop (`syncNow`)

The `MutationQueue` table is embedded as a `List MutationRequest` in
insertion order; `variables` (an opaque `any` payload) is embedded as a
`String`.  The `orderBy(createdAt, ASC)` of the underlying database is
embedded as a stable insertion sort on `createdAt`.  The remote execution of
one entry (`executeMutationHelper` succeeding or throwing) is embedded as a
function `exec : MutationRequest → Bool`. -/

/-- A queued mutation (interface `MutationRequest` in `offlineDb`). -/
structure MutationRequest where
  id : String
  mutationKey : String
  «variables» : String
  createdAt : Int
deriving DecidableEq, Repr

/-- Stable ordered insertion for the `createdAt` ascending sort: the new
entry goes before the first strictly-later entry, after equal timestamps. -/
def insertByCreatedAt (x : MutationRequest) :
    List MutationRequest → List MutationRequest
  | [] => [x]
  | y :: ys =>
      if x.createdAt ≤ y.createdAt then x :: y :: ys
      else y :: insertByCreatedAt x ys

/-- Embeds `getQueuedMutations()`: the queue ordered by `createdAt` ascending. -/
def getQueuedMutations (queue : List MutationRequest) : List MutationRequest :=
  queue.foldr insertByCreatedAt []

/-- Embeds `queueMutation(mutationKey, variables)`; `newId` stands for the fresh
`crypto.randomUUID()` and `now` for `new Date()`; `insertOrReplace` keyed by
`id`. -/
def queueMutation (queue : List MutationRequest)
    (newId mutationKey vars : String) (now : Int) : List MutationRequest :=
  let row : MutationRequest :=
    { id := newId, mutationKey := mutationKey, «variables» := vars, createdAt := now }
  if queue.any (fun r => r.id == newId) then
    queue.map (fun r => if r.id == newId then row else r)
  else
    queue ++ [row]

/-- Embeds `removeMutationFromQueue(id)`. -/
def removeMutationFromQueue (queue : List MutationRequest) (i : String) :
    List MutationRequest :=
  queue.filter (fun r => !(r.id == i))

/-- State threaded through the replay loop of `syncNow`: the durable queue,
the trace of entries handed to `executeMutationHelper` (in invocation
order), and the success/failure counters. -/
structure ReplayState where
  queue : List MutationRequest
  attempted : List MutationRequest
  successCount : Nat
  failCount : Nat
deriving DecidableEq, Repr

/-- One iteration of the `for (const item of queue)` loop in `syncNow`:
execute the entry; on success remove it from the queue and count a success;
on failure leave the queue untouched and count a failure. -/
def replayStep (exec : MutationRequest → Bool) (st : ReplayState)
    (item : MutationRequest) : ReplayState :=
  if exec item then
    { queue := removeMutationFromQueue st.queue item.id,
      attempted := st.attempted ++ [item],
      successCount := st.successCount + 1,
      failCount := st.failCount }
  else
    { queue := st.queue,
      attempted := st.attempted ++ [item],
      successCount := st.successCount,
      failCount := st.failCount + 1 }

/-- Embeds `syncNow()`: replay the ordered queue entry by entry. -/
def syncNow (queue : List MutationRequest) (exec : MutationRequest → Bool) :
    ReplayState :=
  (getQueuedMutations queue).foldl (replayStep exec)
    { queue := queue, attempted := [], successCount := 0, failCount := 0 }

/-- Sorting a queue whose timestamps are already nondecreasing changes
nothing. -/
lemma getQueuedMutations_eq_self (queue : List MutationRequest)
    (h : queue.Chain' (fun a b => a.createdAt ≤ b.createdAt)) :
    getQueuedMutations queue = queue := by
  induction queue with
  | nil => rfl
  | cons x xs ih =>
      have hx : getQueuedMutations (x :: xs) =
          insertByCreatedAt x (getQueuedMutations xs) := rfl
      rw [hx, ih h.tail]
      cases xs with
      | nil => rfl
      | cons y ys =>
          have hxy : x.createdAt ≤ y.createdAt := (List.chain'_cons.mp h).1
          simp [insertByCreatedAt, hxy]

/-- The replay loop hands every ordered entry to the executor, in order,
appending to the trace. -/
lemma foldl_replay_attempted (exec : MutationRequest → Bool)
    (l : List MutationRequest) (st : ReplayState) :
    (l.foldl (replayStep exec) st).attempted = st.attempted ++ l := by
  induction l generalizing st with
  | nil => simp
  | cons x xs ih =>
      rw [List.foldl_cons, ih]
      by_cases hx : exec x = true <;> simp [replayStep, hx]

/-- The replay loop counts one success per successful entry. -/
lemma foldl_replay_successCount (exec : MutationRequest → Bool)
    (l : List MutationRequest) (st : ReplayState) :
    (l.foldl (replayStep exec) st).successCount =
      st.successCount + (l.filter exec).length := by
  induction l generalizing st with
  | nil => simp
  | cons x xs ih =>
      rw [List.foldl_cons, ih]
      by_cases hx : exec x = true
      · simp [replayStep, hx, Nat.add_comm, Nat.add_assoc, Nat.add_left_comm]
      · simp [replayStep, hx]

/-- The replay loop counts one failure per failing entry. -/
lemma foldl_replay_failCount (exec : MutationRequest → Bool)
    (l : List MutationRequest) (st : ReplayState) :
    (l.foldl (replayStep exec) st).failCount =
      st.failCount + (l.filter (fun r => !(exec r))).length := by
  induction l generalizing st with
  | nil => simp
  | cons x xs ih =>
      rw [List.foldl_cons, ih]
      by_cases hx : exec x = true
      · simp [replayStep, hx]
      · simp [replayStep, hx, Nat.add_comm, Nat.add_assoc, Nat.add_left_comm]

/-- The replay loop removes from the durable queue exactly the rows whose id
is the id of some successfully executed entry. -/
lemma foldl_replay_queue (exec : MutationRequest → Bool)
    (l : List MutationRequest) (st : ReplayState) :
    (l.foldl (replayStep exec) st).queue =
      st.queue.filter
        (fun r => !(((l.filter exec).map (fun s => s.id)).contains r.id)) := by
  induction l generalizing st with
  | nil => simp
  | cons x xs ih =>
      rw [List.foldl_cons, ih]
      by_cases hx : exec x = true
      · simp only [replayStep, hx, if_pos, removeMutationFromQueue,
          List.filter_filter]
        rw [List.filter_cons_of_pos (by simp [hx])]
        rw [List.map_cons]
        apply List.filter_congr
        intro r _
        simp [Bool.not_or, Bool.and_comm]
      · simp only [replayStep, hx, Bool.false_eq_true, if_false]
        rw [List.filter_cons_of_neg (by simp [hx])]

/-- On a queue with pairwise-distinct ids, a row's id is among the ids of the
successful entries exactly when the row itself succeeded. -/
lemma contains_succIds_iff (queue : List MutationRequest)
    (exec : MutationRequest → Bool)
    (hids : (queue.map (fun r => r.id)).Nodup)
    (r : MutationRequest) (hr : r ∈ queue) :
    ((queue.filter exec).map (fun s => s.id)).contains r.id = exec r := by
  cases hx : exec r with
  | true =>
      have : r.id ∈ (queue.filter exec).map (fun s => s.id) :=
        List.mem_map.mpr ⟨r, List.mem_filter.mpr ⟨hr, hx⟩, rfl⟩
      simpa using this
  | false =>
      rw [Bool.eq_false_iff]
      intro hcontains
      have hmem : r.id ∈ (queue.filter exec).map (fun s => s.id) := by
        simpa using hcontains
      rcases List.mem_map.mp hmem with ⟨s, hs, hsid⟩
      rcases List.mem_filter.mp hs with ⟨hsq, hsx⟩
      have : s = r := List.inj_on_of_nodup_map hids hsq hr hsid
      rw [this] at hsx
      rw [hsx] at hx
      cases hx

/-- C8: on a queue in enqueue order (timestamps nondecreasing, as produced by
enqueuing with a monotone clock) with pairwise-distinct entry ids, the replay
executes the entries exactly in the stored (ascending-`createdAt` = enqueue =
FIFO) order — so an entry enqueued earlier, such as a `create`, is invoked
before a later one, such as an `update`; every successful entry is removed
from the queue; every failing entry stays in the queue without preventing the
later entries from being attempted; and the success/failure counters report
both totals. -/
theorem syncNow_fifo (queue : List MutationRequest) (exec : MutationRequest → Bool)
    (hsorted : queue.Chain' (fun a b => a.createdAt ≤ b.createdAt))
    (hids : (queue.map (fun r => r.id)).Nodup) :
    getQueuedMutations queue = queue ∧
    (syncNow queue exec).attempted = queue ∧
    (syncNow queue exec).queue = queue.filter (fun r => !(exec r)) ∧
    (syncNow queue exec).successCount = (queue.filter (fun r => exec r)).length ∧
    (syncNow queue exec).failCount = (queue.filter (fun r => !(exec r))).length := by
  have hsort := getQueuedMutations_eq_self queue hsorted
  refine ⟨hsort, ?_, ?_, ?_, ?_⟩
  · rw [syncNow, hsort, foldl_replay_attempted]
    rfl
  · rw [syncNow, hsort, foldl_replay_queue]
    apply List.filter_congr
    intro r hr
    rw [contains_succIds_iff queue exec hids r hr]
  · rw [syncNow, hsort, foldl_replay_successCount]
    simp
  · rw [syncNow, hsort, foldl_replay_failCount]
    simp

/-- The two-entry queue of the C8 witness: a `create` enqueued before an
`update` of the same logical entity. -/
def c8Queue : List MutationRequest :=
  [{ id := "m1", mutationKey := "createExpense", «variables» := "X", createdAt := 1 },
   { id := "m2", mutationKey := "updateBudget", «variables» := "X2", createdAt := 2 }]

/-- Executor of the C8 witness: the `create` fails, the `update` succeeds. -/
def c8Exec : MutationRequest → Bool := fun r => r.id == "m2"

/-- C8 witness: on `c8Queue` with executor `c8Exec` the trace attempts both
entries in enqueue order, the failed `create` stays queued, the successful
`update` is removed, and the counters report one success and one failure. -/
theorem syncNow_fifo_witness :
    getQueuedMutations c8Queue = c8Queue ∧
    (syncNow c8Queue c8Exec).attempted = c8Queue ∧
    (syncNow c8Queue c8Exec).queue = c8Queue.filter (fun r => !(c8Exec r)) ∧
    (syncNow c8Queue c8Exec).successCount = (c8Queue.filter (fun r => c8Exec r)).length ∧
    (syncNow c8Queue c8Exec).failCount = (c8Queue.filter (fun r => !(c8Exec r))).length :=
  syncNow_fifo c8Queue c8Exec
    (by simp [c8Queue, List.chain'_cons])
    (by decide)

end MoneyMate
